import Mathlib

/-!
Shallow embedding of the quota-resilient YouTube fetcher of
lib/youtube-service.ts (class YouTubeService): the duration parser, the
JS parseInt used on view counts, the raw-response to record mapping, the
deduplicator, the date-chunking loop of searchVideos, the do/while
pagination loop of fetchVideosByDateRange, and getVideoDetails.
JS numbers that can be NaN are modelled as `Option Int` (none = NaN);
instants are modelled as integers.
-/

namespace PatientStories

/-- A JS number that may be NaN: `none` stands for NaN. -/
abbrev JSInt := Option Int

/-- Numeric value of a run of decimal digit characters (the value JS
parseInt gives a digit-only string, as used on the regex captures of
parseDuration). -/
def digitsVal (ds : List Char) : Nat :=
  ds.foldl (fun acc c => acc * 10 + (c.toNat - 48)) 0

/-- The characters after the first occurrence of the substring "PT":
the search performed by the regex PT followed by three optional groups
in YouTubeService.parseDuration (source line 396).  All three groups
are optional, so the regex matches exactly at the first `PT`. -/
def afterPT : List Char → Option (List Char)
  | [] => none
  | [_] => none
  | c1 :: c2 :: rest =>
    if c1 = 'P' ∧ c2 = 'T' then some rest else afterPT (c2 :: rest)

/-- One optional regex group of shape digits-then-letter `u`, such as
(\d+H)? : a nonempty maximal run of digits followed by `u` yields its
value and the remaining characters; otherwise the group is skipped and
contributes 0 (source lines 399-401; an absent group contributes 0
through the ternary).  Backtracking cannot rescue a failed group, since
every character the digit run could give back is itself a digit. -/
def matchGroup (u : Char) (cs : List Char) : Nat × List Char :=
  match cs.takeWhile Char.isDigit, cs.dropWhile Char.isDigit with
  | [], _ => (0, cs)
  | _ :: _, [] => (0, cs)
  | d :: ds, c :: rest => if c = u then (digitsVal (d :: ds), rest) else (0, cs)

/-- YouTubeService.parseDuration (source lines 395-404): match the
unanchored regex PT(\d+H)?(\d+M)?(\d+S)? against the string; with no
match the result is 0, otherwise hours, minutes and seconds are summed
from the groups that matched. -/
def parseDuration (duration : String) : Nat :=
  match afterPT duration.toList with
  | none => 0
  | some rest =>
    let h := matchGroup 'H' rest
    let m := matchGroup 'M' h.2
    let s := matchGroup 'S' m.2
    h.1 * 3600 + m.1 * 60 + s.1

/-- A strictly well-formed time-only ISO-8601 duration: the whole string
is PT followed by the three optional groups with nothing left over.
This is the spec-side reading of "malformed" (a string is malformed when
it is not of this shape); it is independent of the lenient scan
`parseDuration` performs. -/
def isWellFormedDuration (s : String) : Bool :=
  match s.toList with
  | 'P' :: 'T' :: rest =>
    let h := matchGroup 'H' rest
    let m := matchGroup 'M' h.2
    let s := matchGroup 'S' m.2
    s.2.isEmpty
  | _ => false

/-- The longest digit prefix as a JS parseInt result: none (NaN) when the
input starts with no digit. -/
def digitsPart (cs : List Char) : Option Nat :=
  match cs.takeWhile Char.isDigit with
  | [] => none
  | d :: ds => some (digitsVal (d :: ds))

/-- JS parseInt(s, 10) as the source applies it to statistics.viewCount
(source lines 293 and 363): skip leading whitespace, read an optional
sign, then the longest prefix of decimal digits; with no digit the
result is NaN (`none`). -/
def jsParseInt (s : String) : JSInt :=
  match s.toList.dropWhile Char.isWhitespace with
  | [] => none
  | c :: rest =>
    if c = '-' then (digitsPart rest).map (fun n => -(n : Int))
    else if c = '+' then (digitsPart rest).map (fun n => (n : Int))
    else (digitsPart (c :: rest)).map (fun n => (n : Int))

/-- JS `a || d` on an optional string: an absent or empty string is falsy
and yields the default (source uses it on every snippet field and on
duration and viewCount). -/
def jsOrString (o : Option String) (d : String) : String :=
  match o with
  | none => d
  | some s => if s = "" then d else s

/-- The VideoMetadata record the service produces (lib/types.ts shape as
built at source lines 287-297 and 357-367).  durationInSeconds is an
integer (always the non-negative result of parseDuration); viewCount is
a JS number that can be NaN. -/
structure VideoMetadata where
  id : String
  title : String
  description : String
  publishedDate : String
  durationInSeconds : Int
  viewCount : JSInt
  url : String
  thumbnail : String
  channel_name : String
deriving DecidableEq

/-- seen-set filter of YouTubeService.removeDuplicateVideos
(source lines 334-343): keep a video exactly when its id has not been
seen, threading the set of seen ids left to right. -/
def removeDupAux (seen : List String) : List VideoMetadata → List VideoMetadata
  | [] => []
  | v :: rest =>
    if v.id ∈ seen then removeDupAux seen rest
    else v :: removeDupAux (v.id :: seen) rest

/-- YouTubeService.removeDuplicateVideos (source lines 334-343). -/
def removeDuplicateVideos (videos : List VideoMetadata) : List VideoMetadata :=
  removeDupAux [] videos

/-- One item of a search.list response: id.videoId may be absent
(source line 264 filters the absent ones out). -/
structure RawSearchItem where
  videoId : Option String
deriving DecidableEq

/-- The snippet of a videos.list item; every field may be absent.
thumbnailHighUrl flattens snippet.thumbnails?.high?.url, absent when any
link of that optional chain is. -/
structure RawSnippet where
  title : Option String
  description : Option String
  publishedAt : Option String
  channelTitle : Option String
  thumbnailHighUrl : Option String
deriving DecidableEq

/-- contentDetails of a videos.list item. -/
structure RawContentDetails where
  duration : Option String
deriving DecidableEq

/-- statistics of a videos.list item. -/
structure RawStatistics where
  viewCount : Option String
deriving DecidableEq

/-- One item of a videos.list (detail) response; each part may be absent. -/
structure RawVideo where
  id : Option String
  snippet : Option RawSnippet
  contentDetails : Option RawContentDetails
  statistics : Option RawStatistics
deriving DecidableEq

/-- The enrichment mapping of fetchVideosByDateRange (source lines
281-298): a detail item with no id maps to null and is filtered out;
otherwise every field falls back through JS `||`, the duration string
(defaulting to "PT0S") goes through parseDuration and viewCount through
parseInt with default "0". -/
def videoMetadataOfRaw (video : RawVideo) : Option VideoMetadata :=
  match video.id with
  | none => none
  | some videoId =>
    some {
      id := videoId
      title := jsOrString (video.snippet.bind RawSnippet.title) ""
      description := jsOrString (video.snippet.bind RawSnippet.description) ""
      publishedDate := jsOrString (video.snippet.bind RawSnippet.publishedAt) ""
      durationInSeconds :=
        (parseDuration (jsOrString (video.contentDetails.bind RawContentDetails.duration) "PT0S") : Int)
      viewCount := jsParseInt (jsOrString (video.statistics.bind RawStatistics.viewCount) "0")
      url := "https://www.youtube.com/watch?v=" ++ videoId
      thumbnail := jsOrString (video.snippet.bind RawSnippet.thumbnailHighUrl) ""
      channel_name := jsOrString (video.snippet.bind RawSnippet.channelTitle) "" }

/-- The record getVideoDetails builds (source lines 357-367): the same
mapping except that the id written into the record is the argument of
the call, and no id-presence check is made on the returned item. -/
def getVideoDetailsMetadata (videoId : String) (video : RawVideo) : VideoMetadata :=
  { id := videoId
    title := jsOrString (video.snippet.bind RawSnippet.title) ""
    description := jsOrString (video.snippet.bind RawSnippet.description) ""
    publishedDate := jsOrString (video.snippet.bind RawSnippet.publishedAt) ""
    durationInSeconds :=
      (parseDuration (jsOrString (video.contentDetails.bind RawContentDetails.duration) "PT0S") : Int)
    viewCount := jsParseInt (jsOrString (video.statistics.bind RawStatistics.viewCount) "0")
    url := "https://www.youtube.com/watch?v=" ++ videoId
    thumbnail := jsOrString (video.snippet.bind RawSnippet.thumbnailHighUrl) ""
    channel_name := jsOrString (video.snippet.bind RawSnippet.channelTitle) "" }

/-- The provider's answer to one page request of the pagination loop
(the search.list call together with its follow-up videos.list call). -/
inductive PageResponse where
  /-- search.list succeeded: its raw items, the raw detail items the
  follow-up videos.list returned, and the page's nextPageToken. -/
  | success (items : List RawSearchItem) (details : List RawVideo)
      (nextPageToken : Option String)
  /-- the request threw with HTTP 403 carrying reason quotaExceeded
  (source line 320). -/
  | quotaError
  /-- the request threw any other way: network failure, 5xx, non-quota
  4xx (source line 326 breaks the loop). -/
  | otherError
deriving DecidableEq

/-- What one run of the pagination loop leaves behind: the videos
fetched, the value of the service's quotaExceeded field on exit, how
many quota suspensions were slept through at the top of an iteration
(source lines 222-230), and the pageToken of each search.list request
issued, in order (none = first page, no token). -/
structure FetchResult where
  videos : List VideoMetadata
  quotaExceeded : Bool
  waits : Nat
  requestedTokens : List (Option String)
deriving DecidableEq

/-- Whether a per-call result cap is reached (source line 309: only
break if maxResults is defined and reached). -/
def capReached (maxResults : Option Nat) (fetched : Nat) : Bool :=
  match maxResults with
  | some m => m ≤ fetched
  | none => false

/-- The do/while pagination loop of YouTubeService.fetchVideosByDateRange
(source lines 221-328).  The provider is a script: the responses to the
successive search.list requests in request order; an exhausted script
ends the run (every theorem below supplies a script at least as long as
the run it describes).  The body first waits out a pending quota
suspension and clears the flag (lines 222-230), then issues the request
with the current nextPageToken.  On success with no items or no valid
videoIds it breaks; otherwise it appends the enriched page, breaks when
the cap is reached, and otherwise re-iterates on the new token.  On a
quota error it sets the flag and `continue`s: in a do/while, continue
jumps to the condition `nextPageToken !== null`, so the loop re-iterates
(and then retries the same token) only when the current token is
non-null.  On any other error it breaks. -/
def fetchLoop (script : List PageResponse) (quotaExceeded : Bool)
    (nextPageToken : Option String) (allVideos : List VideoMetadata)
    (resultsFetched : Nat) (maxResults : Option Nat)
    (waits : Nat) (requestedTokens : List (Option String)) : FetchResult :=
  let waits' := if quotaExceeded then waits + 1 else waits
  match script with
  | [] => ⟨allVideos, false, waits', requestedTokens⟩
  | resp :: rest =>
    let requested := requestedTokens ++ [nextPageToken]
    match resp with
    | .success items details ntok =>
      if items.isEmpty then ⟨allVideos, false, waits', requested⟩
      else if (items.filterMap RawSearchItem.videoId).isEmpty then
        ⟨allVideos, false, waits', requested⟩
      else
        let videoMetadata := details.filterMap videoMetadataOfRaw
        let allVideos' := allVideos ++ videoMetadata
        let resultsFetched' := resultsFetched + videoMetadata.length
        if capReached maxResults resultsFetched' then
          ⟨allVideos', false, waits', requested⟩
        else
          match ntok with
          | none => ⟨allVideos', false, waits', requested⟩
          | some t =>
            fetchLoop rest false (some t) allVideos' resultsFetched'
              maxResults waits' requested
    | .quotaError =>
      match nextPageToken with
      | none => ⟨allVideos, true, waits', requested⟩
      | some t =>
        fetchLoop rest true (some t) allVideos resultsFetched
          maxResults waits' requested
    | .otherError => ⟨allVideos, false, waits', requested⟩

/-- YouTubeService.fetchVideosByDateRange (source lines 204-332) for one
date window: run the pagination loop from a null page token with nothing
accumulated. -/
def fetchVideosByDateRange (script : List PageResponse)
    (quotaExceeded : Bool) (maxResults : Option Nat) : FetchResult :=
  fetchLoop script quotaExceeded none [] 0 maxResults 0 []

/-- The per-chunk cap searchVideos passes down (source line 165):
`totalResults ? totalResults - resultsFetched : undefined` - a zero
maxResults is falsy in JS and passes no cap. -/
def chunkCap (totalResults : Option Nat) (resultsFetched : Nat) : Option Nat :=
  match totalResults with
  | some t => if t = 0 then none else some (t - resultsFetched)
  | none => none

/-- The date-chunk loop of YouTubeService.searchVideos (source lines
148-181): each window's provider script is supplied in chunk
(chronological) order; each chunk's fetch starts from the quotaExceeded
field the previous chunk left, its results are concatenated in window
order, and the loop stops early once resultsFetched reaches
totalResults.  Returns the accumulated videos and the final
quotaExceeded field. -/
def searchLoop (windows : List (List PageResponse)) (quotaExceeded : Bool)
    (totalResults : Option Nat) (resultsFetched : Nat)
    (allVideos : List VideoMetadata) : List VideoMetadata × Bool :=
  match windows with
  | [] => (allVideos, quotaExceeded)
  | script :: rest =>
    let r := fetchVideosByDateRange script quotaExceeded
      (chunkCap totalResults resultsFetched)
    let allVideos' := allVideos ++ r.videos
    let resultsFetched' := resultsFetched + r.videos.length
    if capReached totalResults resultsFetched' then (allVideos', r.quotaExceeded)
    else searchLoop rest r.quotaExceeded totalResults resultsFetched' allVideos'

/-- YouTubeService.searchVideos (source lines 122-202): run the chunk
loop, deduplicate, and slice to totalResults when the deduplicated list
exceeds it (lines 190-197).  The result is typed Except because the
source wraps the body in try/catch and rethrows (lines 198-201); no
provider failure reaches that catch - fetchVideosByDateRange catches
every request error inside its own loop and returns the partial list -
so every branch of the body returns ok. -/
def searchVideos (windows : List (List PageResponse)) (quotaExceeded : Bool)
    (totalResults : Option Nat) : Except Unit (List VideoMetadata) :=
  let allVideos := (searchLoop windows quotaExceeded totalResults 0 []).1
  let uniqueVideos := removeDuplicateVideos allVideos
  match totalResults with
  | some t =>
    if t < uniqueVideos.length then Except.ok (uniqueVideos.take t)
    else Except.ok uniqueVideos
  | none => Except.ok uniqueVideos

/-- True when the result is a normal return (Except.ok): the search did
not raise. -/
def searchOk (r : Except Unit (List VideoMetadata)) : Bool :=
  match r with
  | .ok _ => true
  | .error _ => false

/-- The provider's answer to the one videos.list call of
getVideoDetails. -/
inductive DetailResponse where
  /-- the call returned these items (possibly none) -/
  | success (items : List RawVideo)
  /-- the call threw -/
  | failure
deriving DecidableEq

/-- What one getVideoDetails call leaves behind: its return value, how
many provider detail requests it issued, and how many quota suspensions
it waited out before issuing them. -/
structure LookupResult where
  result : Option VideoMetadata
  requests : Nat
  waits : Nat
deriving DecidableEq

/-- YouTubeService.getVideoDetails (source lines 345-374): one
videos.list request, no pagination; the first returned item (or its
absence) decides the result, and a thrown error yields null.  The body
never reads the quotaExceeded field: the `quotaExceeded` argument
models that field's value at call time and is unused, so `waits` is
always 0 and `requests` always 1. -/
def getVideoDetails (videoId : String) (_quotaExceeded : Bool)
    (resp : DetailResponse) : LookupResult :=
  match resp with
  | .failure => ⟨none, 1, 0⟩
  | .success items =>
    match items.head? with
    | none => ⟨none, 1, 0⟩
    | some video => ⟨some (getVideoDetailsMetadata videoId video), 1, 0⟩

/-- One date window of the chunking loop: half-open span from start to
stop (the source's currentStartDate and chunkEndDate). -/
structure SearchWindow where
  start : Int
  stop : Int
deriving DecidableEq

/-- The date-chunking of YouTubeService.searchVideos (source lines
144-181), abstracted over the chunk interval: while currentStart is
before the overall end, emit the window from currentStart to
min (currentStart + delta) stop and continue from that window's end.
The source fixes delta = dateChunkIntervalDays = 180 (days, modelled as
integer instants); the `0 < delta` guard only rules out the
non-terminating instantiations the source never makes. -/
def chunks (start stop delta : Int) : List SearchWindow :=
  if _h : start < stop ∧ 0 < delta then
    ⟨start, min (start + delta) stop⟩ ::
      chunks (min (start + delta) stop) stop delta
  else []
termination_by (stop - start).toNat
decreasing_by omega

/-- A nonempty string of decimal digits (the provider shapes whose
viewCount survives parseInt as a non-negative integer). -/
def DigitString (s : String) : Prop :=
  s.toList ≠ [] ∧ ∀ c ∈ s.toList, c.isDigit = true

/-- Fixture: a raw detail item carrying only an id. -/
def exRaw (i : String) : RawVideo := ⟨some i, none, none, none⟩

/-- Fixture: a raw search item carrying an id. -/
def exItem (i : String) : RawSearchItem := ⟨some i⟩

/-- Fixture: the record the enrichment mapping produces from exRaw i. -/
def exMeta (i : String) : VideoMetadata :=
  ⟨i, "", "", "", 0, some 0, "https://www.youtube.com/watch?v=" ++ i, "", ""⟩

/-- Fixture: one full provider page of 7 distinct items with ids
a, a+1, ..., a+6 and no continuation token. -/
def exPage (a : Nat) : PageResponse :=
  PageResponse.success ((List.range' a 7).map fun n => exItem (toString n))
    ((List.range' a 7).map fun n => exRaw (toString n)) none

/-- Fixture: three chronological windows, each answering its single page
request with 7 distinct items (ids 1-7, 8-14, 15-21). -/
def exWindows : List (List PageResponse) := [[exPage 1], [exPage 8], [exPage 15]]

/-- Fixture: a raw detail item whose statistics.viewCount is not numeric. -/
def badStatsRaw : RawVideo := ⟨some "v", none, none, some ⟨some "abc"⟩⟩

/-- Fixture: records for the dedup example, the two sharing id "A"
distinguished by title. -/
def vidA : VideoMetadata := ⟨"A", "first", "", "", 0, some 0, "", "", ""⟩

/-- Fixture: second record with id "A". -/
def vidA2 : VideoMetadata := ⟨"A", "second", "", "", 0, some 0, "", "", ""⟩

/-- Fixture: record with id "B". -/
def vidB : VideoMetadata := ⟨"B", "", "", "", 0, some 0, "", "", ""⟩

/-- Fixture: record with id "C". -/
def vidC : VideoMetadata := ⟨"C", "", "", "", 0, some 0, "", "", ""⟩

/-! ## Theorems -/

/-- The seen-set filter only ever drops elements, in place: its result
is a sublist of its input. -/
theorem removeDupAux_sublist (seen : List String) (xs : List VideoMetadata) :
    List.Sublist (removeDupAux seen xs) xs := by
  induction xs generalizing seen with
  | nil => simp [removeDupAux]
  | cons v rest ih =>
    by_cases h : v.id ∈ seen
    · simp only [removeDupAux, if_pos h]
      exact (ih seen).cons v
    · simp only [removeDupAux, if_neg h]
      exact (ih (v.id :: seen)).cons₂ v

/-- No element the seen-set filter keeps has an id in the seen set. -/
theorem mem_removeDupAux_not_seen (seen : List String)
    (xs : List VideoMetadata) (w : VideoMetadata)
    (hw : w ∈ removeDupAux seen xs) : w.id ∉ seen := by
  induction xs generalizing seen with
  | nil => simp [removeDupAux] at hw
  | cons v rest ih =>
    by_cases h : v.id ∈ seen
    · rw [removeDupAux, if_pos h] at hw
      exact ih seen hw
    · rw [removeDupAux, if_neg h] at hw
      rcases List.mem_cons.mp hw with rfl | hw'
      · exact h
      · intro hmem
        exact ih (v.id :: seen) hw' (List.mem_cons_of_mem _ hmem)

/-- The ids of the seen-set filter's output are pairwise distinct. -/
theorem removeDupAux_map_id_nodup (seen : List String)
    (xs : List VideoMetadata) :
    ((removeDupAux seen xs).map VideoMetadata.id).Nodup := by
  induction xs generalizing seen with
  | nil => simp [removeDupAux]
  | cons v rest ih =>
    by_cases h : v.id ∈ seen
    · simp only [removeDupAux, if_pos h]
      exact ih seen
    · simp only [removeDupAux, if_neg h, List.map_cons, List.nodup_cons]
      refine ⟨?_, ih (v.id :: seen)⟩
      intro hmem
      rcases List.mem_map.mp hmem with ⟨w, hw, hid⟩
      apply mem_removeDupAux_not_seen _ _ _ hw
      rw [hid]
      exact List.mem_cons_self _ _

/-- Every id of the input whose id is not already seen is represented in
the seen-set filter's output. -/
theorem removeDupAux_id_mem (seen : List String) (xs : List VideoMetadata)
    (v : VideoMetadata) (hv : v ∈ xs) (hns : v.id ∉ seen) :
    v.id ∈ (removeDupAux seen xs).map VideoMetadata.id := by
  induction xs generalizing seen with
  | nil => simp at hv
  | cons u rest ih =>
    by_cases h : u.id ∈ seen
    · simp only [removeDupAux, if_pos h]
      rcases List.mem_cons.mp hv with rfl | hv'
      · exact absurd h hns
      · exact ih seen hv' hns
    · simp only [removeDupAux, if_neg h, List.map_cons]
      rcases List.mem_cons.mp hv with rfl | hv'
      · exact List.mem_cons_self _ _
      · by_cases hid : v.id = u.id
        · rw [hid]
          exact List.mem_cons_self _ _
        · refine List.mem_cons_of_mem _ (ih (u.id :: seen) hv' ?_)
          intro hmem
          rcases List.mem_cons.mp hmem with h1 | h1
          · exact hid h1
          · exact hns h1

/-- Every element the seen-set filter keeps is the earliest element of
the input with its id, except for ids already in the seen set. -/
theorem removeDupAux_first_occ (seen : List String)
    (xs : List VideoMetadata) (w : VideoMetadata)
    (hw : w ∈ removeDupAux seen xs) :
    ∃ n : Nat, xs[n]? = some w ∧
      ∀ m, m < n → ∀ u : VideoMetadata,
        xs[m]? = some u → u.id ∈ seen ∨ u.id ≠ w.id := by
  induction xs generalizing seen with
  | nil => simp [removeDupAux] at hw
  | cons v rest ih =>
    by_cases h : v.id ∈ seen
    · rw [removeDupAux, if_pos h] at hw
      obtain ⟨n, hn, hmin⟩ := ih seen hw
      refine ⟨n + 1, by simpa using hn, ?_⟩
      intro m hm u hu
      cases m with
      | zero =>
        have hv : v = u := by simpa using hu
        subst hv
        exact Or.inl h
      | succ m' => exact hmin m' (by omega) u (by simpa using hu)
    · rw [removeDupAux, if_neg h] at hw
      rcases List.mem_cons.mp hw with rfl | hw'
      · exact ⟨0, by simp, fun m hm => absurd hm (Nat.not_lt_zero m)⟩
      · obtain ⟨n, hn, hmin⟩ := ih (v.id :: seen) hw'
        have hwid : w.id ∉ v.id :: seen :=
          mem_removeDupAux_not_seen _ _ _ hw'
        refine ⟨n + 1, by simpa using hn, ?_⟩
        intro m hm u hu
        cases m with
        | zero =>
          have hv : v = u := by simpa using hu
          subst hv
          refine Or.inr fun heq => hwid ?_
          rw [← heq]
          exact List.mem_cons_self _ _
        | succ m' =>
          rcases hmin m' (by omega) u (by simpa using hu) with h1 | h1
          · rcases List.mem_cons.mp h1 with h2 | h2
            · refine Or.inr fun heq => hwid ?_
              rw [← heq, h2]
              exact List.mem_cons_self _ _
            · exact Or.inl h2
          · exact Or.inr h1

/-- C7: removeDuplicateVideos returns, in first-seen order, exactly one
entry per distinct id of its input, keeping the first occurrence of each
id; on the example [A, B, A, C] it returns [A, B, C] with the first A
kept. -/
theorem removeDuplicateVideos_spec :
    (∀ xs : List VideoMetadata,
      List.Sublist (removeDuplicateVideos xs) xs ∧
      ((removeDuplicateVideos xs).map VideoMetadata.id).Nodup ∧
      (∀ v ∈ xs, v.id ∈ (removeDuplicateVideos xs).map VideoMetadata.id) ∧
      (∀ w ∈ removeDuplicateVideos xs, ∃ n : Nat, xs[n]? = some w ∧
        ∀ m, m < n → ∀ u : VideoMetadata,
          xs[m]? = some u → u.id ≠ w.id)) ∧
    removeDuplicateVideos [vidA, vidB, vidA2, vidC] = [vidA, vidB, vidC] := by
  constructor
  · intro xs
    refine ⟨removeDupAux_sublist [] xs, removeDupAux_map_id_nodup [] xs, ?_, ?_⟩
    · intro v hv
      exact removeDupAux_id_mem [] xs v hv (by simp)
    · intro w hw
      obtain ⟨n, hn, hmin⟩ := removeDupAux_first_occ [] xs w hw
      exact ⟨n, hn, fun m hm u hu => (hmin m hm u hu).resolve_left (by simp)⟩
  · decide

/-- The seen-set filter is the identity on inputs with pairwise distinct
ids none of which is already seen. -/
theorem removeDupAux_eq_self (seen : List String) (xs : List VideoMetadata)
    (hseen : ∀ v ∈ xs, v.id ∉ seen)
    (hnd : (xs.map VideoMetadata.id).Nodup) : removeDupAux seen xs = xs := by
  induction xs generalizing seen with
  | nil => rfl
  | cons v rest ih =>
    have hv : v.id ∉ seen := hseen v (List.mem_cons_self _ _)
    rw [List.map_cons, List.nodup_cons] at hnd
    simp only [removeDupAux, if_neg hv]
    congr 1
    apply ih
    · intro u hu hmem
      rcases List.mem_cons.mp hmem with h1 | h1
      · exact hnd.1 (h1 ▸ List.mem_map_of_mem _ hu)
      · exact hseen u (List.mem_cons_of_mem _ hu) h1
    · exact hnd.2

/-- C10: removeDuplicateVideos is idempotent, and is the identity on
every list whose ids are pairwise distinct. -/
theorem removeDuplicateVideos_idempotent :
    (∀ xs, removeDuplicateVideos (removeDuplicateVideos xs) =
      removeDuplicateVideos xs) ∧
    (∀ xs, (xs.map VideoMetadata.id).Nodup → removeDuplicateVideos xs = xs) := by
  have hself : ∀ xs, (xs.map VideoMetadata.id).Nodup →
      removeDuplicateVideos xs = xs :=
    fun xs hnd => removeDupAux_eq_self [] xs (by simp) hnd
  exact ⟨fun xs => hself _ (removeDupAux_map_id_nodup [] xs), hself⟩

/-- C6 counterexample: "XPT1S" is malformed (it is not PT followed by
the optional hour, minute, second groups - it does not even start with
P), yet parseDuration maps it to 1, not 0: the regex scan is unanchored
and finds PT mid-string. -/
theorem parseDuration_malformed_nonzero :
    isWellFormedDuration "XPT1S" = false ∧ parseDuration "XPT1S" = 1 := by
  exact ⟨by decide, by decide⟩

/-- C6 (amended): the three specified examples parse as stated, and the
parser is total; but a malformed string is only guaranteed to map to 0
when the regex finds no match - a malformed string containing "PT", such
as "XPT1S", parses leniently to a nonzero value. -/
theorem parseDuration_examples :
    parseDuration "PT1H2M3S" = 3723 ∧ parseDuration "PT0S" = 0 ∧
    parseDuration "PT45M" = 2700 ∧ parseDuration "XPT1S" = 1 := by
  exact ⟨by decide, by decide, by decide, by decide⟩

/-- The regex scan finds no "PT" exactly when no position of the string
starts with the two characters P, T. -/
theorem afterPT_eq_none : ∀ cs : List Char,
    (∀ i, i < cs.length → (cs.drop i).take 2 ≠ ['P', 'T']) →
    afterPT cs = none
  | [], _ => rfl
  | [_], _ => rfl
  | c :: c2 :: rest, h => by
    have h0 := h 0 (by simp)
    simp only [List.drop_zero] at h0
    rw [afterPT, if_neg]
    · exact afterPT_eq_none (c2 :: rest) (fun i hi => by
        have hh := h (i + 1) (by simpa using Nat.succ_lt_succ hi)
        simpa using hh)
    · rintro ⟨rfl, rfl⟩
      exact h0 (by simp)

/-- C9: parseDuration returns 0 for every string that does not contain
the literal substring "PT" - in particular for well-formed ISO-8601
durations with a date component such as "P1DT2H", whose components all
contribute nothing. -/
theorem parseDuration_no_PT (s : String)
    (h : ∀ i, i < s.toList.length → (s.toList.drop i).take 2 ≠ ['P', 'T']) :
    parseDuration s = 0 := by
  unfold parseDuration
  rw [afterPT_eq_none s.toList h]

/-- Witness for parseDuration_no_PT at "P1DT2H": no position of the
string starts with P, T (the only T follows D), and the parse is 0. -/
theorem parseDuration_no_PT_witness :
    (∀ i, i < ("P1DT2H").toList.length →
      (("P1DT2H").toList.drop i).take 2 ≠ ['P', 'T']) ∧
    parseDuration "P1DT2H" = 0 :=
  ⟨by decide, parseDuration_no_PT "P1DT2H" (by decide)⟩

theorem chunks_nil (start stop delta : Int)
    (h : ¬(start < stop ∧ 0 < delta)) : chunks start stop delta = [] := by
  rw [chunks]
  exact dif_neg h

theorem chunks_cons (start stop delta : Int) (h : start < stop)
    (hd : 0 < delta) :
    chunks start stop delta =
      ⟨start, min (start + delta) stop⟩ ::
        chunks (min (start + delta) stop) stop delta := by
  conv_lhs => rw [chunks]
  exact dif_pos ⟨h, hd⟩

theorem chunks_main (start stop delta : Int) (hd : 0 < delta)
    (h : start < stop) :
    (chunks start stop delta).head?.map SearchWindow.start = some start ∧
    (chunks start stop delta).getLast?.map SearchWindow.stop = some stop ∧
    List.Chain' (fun a b => a.stop = b.start) (chunks start stop delta) ∧
    ∀ w ∈ chunks start stop delta, w.start < w.stop ∧ w.stop - w.start ≤ delta := by
  rw [chunks_cons start stop delta h hd]
  by_cases h2 : min (start + delta) stop < stop
  · obtain ⟨ih1, ih2, ih3, ih4⟩ := chunks_main (min (start + delta) stop) stop delta hd h2
    have hne : chunks (min (start + delta) stop) stop delta ≠ [] := by
      intro hnil
      rw [hnil] at ih1
      simp at ih1
    obtain ⟨b, l2, hl⟩ := List.exists_cons_of_ne_nil hne
    refine ⟨rfl, ?_, ?_, ?_⟩
    · rw [hl, List.getLast?_cons_cons, ← hl]
      exact ih2
    · rw [List.chain'_cons']
      refine ⟨?_, ih3⟩
      intro y hy
      have hhd : (chunks (min (start + delta) stop) stop delta).head? = some y := hy
      rw [hhd] at ih1
      simp only [Option.map] at ih1
      exact (Option.some.inj ih1).symm
    · intro w hw
      rcases List.mem_cons.mp hw with rfl | hw2
      · constructor
        · show start < min (start + delta) stop
          omega
        · show min (start + delta) stop - start ≤ delta
          omega
      · exact ih4 w hw2
  · have hmin : min (start + delta) stop = stop := by omega
    rw [hmin, chunks_nil stop stop delta (by omega)]
    refine ⟨rfl, rfl, List.chain'_singleton _, ?_⟩
    intro w hw
    rcases List.mem_cons.mp hw with rfl | hw2
    · constructor
      · show start < stop
        exact h
      · show stop - start ≤ delta
        omega
    · simp at hw2
termination_by (stop - start).toNat
decreasing_by omega

/-- C5: for all instants start < stop and chunk size delta, the
chunking yields a nonempty ordered sequence of contiguous windows
(each window's end is the next window's start), the first window
starting at start, the last ending at stop, every window nonempty with
span at most delta; and for start >= stop it yields the empty sequence,
not an error. -/
theorem chunks_spec (start stop delta : Int) (hd : 0 < delta) :
    (stop ≤ start → chunks start stop delta = []) ∧
    (start < stop →
      (chunks start stop delta).head?.map SearchWindow.start = some start ∧
      (chunks start stop delta).getLast?.map SearchWindow.stop = some stop ∧
      List.Chain' (fun a b => a.stop = b.start) (chunks start stop delta) ∧
      ∀ w ∈ chunks start stop delta, w.start < w.stop ∧ w.stop - w.start ≤ delta) :=
  ⟨fun hle => chunks_nil start stop delta (by omega),
   fun hlt => chunks_main start stop delta hd hlt⟩

/-- Witness for chunks_spec with the source's 180-day interval: a
reversed range yields no windows, and the range 0..400 yields contiguous
windows from 0 to 400 of span at most 180. -/
theorem chunks_spec_witness :
    chunks 400 100 180 = [] ∧
    ((chunks 0 400 180).head?.map SearchWindow.start = some 0 ∧
     (chunks 0 400 180).getLast?.map SearchWindow.stop = some 400 ∧
     List.Chain' (fun a b => a.stop = b.start) (chunks 0 400 180) ∧
     ∀ w ∈ chunks 0 400 180, w.start < w.stop ∧ w.stop - w.start ≤ 180) :=
  ⟨(chunks_spec 400 100 180 (by norm_num)).1 (by norm_num),
   (chunks_spec 0 400 180 (by norm_num)).2 (by norm_num)⟩

/-- C1 (code bug): a quota-exceeded failure on a window's first page
request (page token absent) abandons the window - the do/while condition
nextPageToken !== null is false, so `continue` exits the loop with no
wait and no retry, the flag left set, and the window's items lost;
whereas a quota failure on a later page is retried transparently with
the same page token after one wait. -/
theorem fetch_quota_first_page_loses_window :
    fetchVideosByDateRange
      [PageResponse.quotaError,
       PageResponse.success [exItem "A"] [exRaw "A"] none] false none =
      ⟨[], true, 0, [none]⟩ ∧
    fetchVideosByDateRange
      [PageResponse.success [exItem "A"] [exRaw "A"] (some "p2"),
       PageResponse.quotaError,
       PageResponse.success [exItem "B"] [exRaw "B"] none] false none =
      ⟨[exMeta "A", exMeta "B"], false, 1, [none, some "p2", some "p2"]⟩ := by
  exact ⟨by decide, by decide⟩

/-- C2 counterexample: the very first window's first request fails with
a non-quota error before any results are obtained, yet searchVideos does
not raise - it returns ok with the empty accumulation. -/
theorem search_first_window_failure_returns_ok :
    searchVideos [[PageResponse.otherError]] false none = Except.ok [] ∧
    Except.ok ([] : List VideoMetadata) ≠ Except.error () := by
  exact ⟨rfl, by simp⟩

/-- C2 (amended): searchVideos never raises on provider failures - every
run returns ok with the accumulated (deduplicated, capped) results; in
particular a window whose provider call fails with a transient error
after 2 of its pages still contributes those 2 pages' items, and the
call does not raise. -/
theorem search_best_effort :
    (∀ (windows : List (List PageResponse)) (q : Bool) (t : Option Nat),
      searchOk (searchVideos windows q t) = true) ∧
    searchVideos
      [[PageResponse.success [exItem "A"] [exRaw "A"] (some "p2"),
        PageResponse.success [exItem "B"] [exRaw "B"] (some "p3"),
        PageResponse.otherError]] false none =
      Except.ok [exMeta "A", exMeta "B"] := by
  constructor
  · intro windows q t
    cases t with
    | none => rfl
    | some m =>
      by_cases h : m <
          (removeDuplicateVideos (searchLoop windows q (some m) 0 []).1).length
      · simp [searchVideos, searchOk, h]
      · simp [searchVideos, searchOk, h]
  · rfl

/-- C4: when maxResults is set and the deduplicated accumulation exceeds
it, searchVideos returns exactly the first maxResults elements of the
deduplicated window-ordered accumulation - truncation happens last,
after windowing and after dedup, and the final length is exactly
maxResults. -/
theorem search_truncates_after_dedup (windows : List (List PageResponse))
    (q : Bool) (m : Nat)
    (h : m < (removeDuplicateVideos (searchLoop windows q (some m) 0 []).1).length) :
    searchVideos windows q (some m) =
      Except.ok
        ((removeDuplicateVideos (searchLoop windows q (some m) 0 []).1).take m) ∧
    ((removeDuplicateVideos (searchLoop windows q (some m) 0 []).1).take m).length = m := by
  constructor
  · simp only [searchVideos]
    rw [if_pos h]
  · rw [List.length_take]
    omega

/-- Witness for search_truncates_after_dedup: three chronological
windows each yielding 7 distinct items and maxResults = 10; the third
window is skipped (early stop), dedup leaves 14 > 10 items, and the
output is exactly the first 10 in window-then-first-seen order. -/
theorem search_truncates_after_dedup_witness :
    10 < (removeDuplicateVideos (searchLoop exWindows false (some 10) 0 []).1).length ∧
    (searchVideos exWindows false (some 10) =
      Except.ok
        ((removeDuplicateVideos (searchLoop exWindows false (some 10) 0 []).1).take 10) ∧
     ((removeDuplicateVideos (searchLoop exWindows false (some 10) 0 []).1).take 10).length = 10) ∧
    searchVideos exWindows false (some 10) =
      Except.ok ((List.range' 1 10).map fun n => exMeta (toString n)) :=
  ⟨by decide, search_truncates_after_dedup exWindows false 10 (by decide), by rfl⟩

/-- C3 counterexample: with the quota state exceeded/suspended at call
time, getVideoDetails still issues its provider request immediately - it
performs one request and zero waits, so it does not consult the quota
governor. -/
theorem lookup_ignores_quota_cex :
    (getVideoDetails "v" true (DetailResponse.success [exRaw "v"])).requests = 1 ∧
    (getVideoDetails "v" true (DetailResponse.success [exRaw "v"])).waits = 0 := by
  exact ⟨by decide, by decide⟩

/-- C3 (amended): getVideoDetails issues exactly one detail-API request
with no pagination and returns the record built from the first returned
item, or absent when the call fails or returns no item; but it never
consults the quota governor - whatever the quota state, it issues its
one request with zero waits. -/
theorem getVideoDetails_spec :
    ∀ (videoId : String) (quotaState : Bool) (resp : DetailResponse),
      (getVideoDetails videoId quotaState resp).requests = 1 ∧
      (getVideoDetails videoId quotaState resp).waits = 0 ∧
      (∀ items, resp = DetailResponse.success items →
        (getVideoDetails videoId quotaState resp).result =
          items.head?.map (getVideoDetailsMetadata videoId)) ∧
      (resp = DetailResponse.failure →
        (getVideoDetails videoId quotaState resp).result = none) := by
  intro videoId q resp
  cases resp with
  | failure =>
    refine ⟨rfl, rfl, ?_, fun _ => rfl⟩
    intro items hitems
    exact absurd hitems (by simp)
  | success items =>
    cases items with
    | nil =>
      refine ⟨rfl, rfl, ?_, ?_⟩
      · intro its hits
        injection hits with h2
        subst h2
        rfl
      · intro hfail
        exact absurd hfail (by simp)
    | cons v rest =>
      refine ⟨rfl, rfl, ?_, ?_⟩
      · intro its hits
        injection hits with h2
        subst h2
        rfl
      · intro hfail
        exact absurd hfail (by simp)

/-- C8 counterexample: a provider detail item whose statistics.viewCount
is the non-numeric string "abc" yields, through both the search
enrichment mapping and the single-item lookup mapping, a record whose
viewCount is NaN - not a non-negative integer. -/
theorem viewCount_nan_cex :
    (videoMetadataOfRaw badStatsRaw).map VideoMetadata.viewCount = some none ∧
    (getVideoDetailsMetadata "v" badStatsRaw).viewCount = none := by
  exact ⟨by decide, by decide⟩

/-- A digit character is not whitespace and is neither sign character. -/
theorem digit_char_facts (c : Char) (h : c.isDigit = true) :
    c.isWhitespace = false ∧ c ≠ '-' ∧ c ≠ '+' := by
  refine ⟨?_, ?_, ?_⟩
  · cases hw : c.isWhitespace
    · rfl
    · exfalso
      simp only [Char.isWhitespace, Bool.or_eq_true, decide_eq_true_eq] at hw
      rcases hw with ((h1 | h1) | h1) | h1 <;> subst h1 <;>
        exact absurd h (by decide)
  · intro heq
    subst heq
    exact absurd h (by decide)
  · intro heq
    subst heq
    exact absurd h (by decide)

/-- parseInt on a nonempty all-digit string yields a non-negative
integer. -/
theorem jsParseInt_digits (s : String) (h : DigitString s) :
    ∃ n : Nat, jsParseInt s = some ((n : Int)) := by
  obtain ⟨hne, hall⟩ := h
  obtain ⟨c, rest, hcs⟩ := List.exists_cons_of_ne_nil hne
  have hc : c.isDigit = true := hall c (by rw [hcs]; exact List.mem_cons_self _ _)
  obtain ⟨hws, hminus, hplus⟩ := digit_char_facts c hc
  unfold jsParseInt
  rw [hcs, List.dropWhile_cons, hws]
  simp only [Bool.false_eq_true, if_false]
  rw [if_neg hminus, if_neg hplus]
  unfold digitsPart
  have htake : (c :: rest).takeWhile Char.isDigit = c :: rest :=
    List.takeWhile_eq_self_iff.mpr (fun x hx => hall x (hcs ▸ hx))
  rw [htake]
  exact ⟨digitsVal (c :: rest), rfl⟩

/-- C8 (amended): every record either mapping produces has a
non-negative integer durationInSeconds for every provider response
shape; its viewCount is a non-negative integer whenever the
statistics.viewCount field is absent (the JS default "0") or is a
nonempty digit string, but a non-numeric viewCount string parses to
NaN rather than a non-negative integer. -/
theorem videoRecord_numeric_fields (video : RawVideo) :
    (∀ md, videoMetadataOfRaw video = some md →
      0 ≤ md.durationInSeconds ∧
      (DigitString (jsOrString (video.statistics.bind RawStatistics.viewCount) "0") →
        ∃ n : Nat, md.viewCount = some ((n : Int)))) ∧
    (∀ videoId : String,
      0 ≤ (getVideoDetailsMetadata videoId video).durationInSeconds ∧
      (DigitString (jsOrString (video.statistics.bind RawStatistics.viewCount) "0") →
        ∃ n : Nat, (getVideoDetailsMetadata videoId video).viewCount = some ((n : Int)))) := by
  constructor
  · intro md hmd
    unfold videoMetadataOfRaw at hmd
    cases hid : video.id with
    | none =>
      rw [hid] at hmd
      exact absurd hmd (by simp)
    | some videoId =>
      rw [hid] at hmd
      injection hmd with h2
      subst h2
      constructor
      · exact Int.natCast_nonneg _
      · intro hdig
        exact jsParseInt_digits _ hdig
  · intro videoId
    constructor
    · exact Int.natCast_nonneg _
    · intro hdig
      exact jsParseInt_digits _ hdig

end PatientStories
